import Mathlib

/-!
Shallow embedding of `kikuchipy/simulations/kikuchi_pattern_simulator.py`
(class `KikuchiPatternSimulator`): the `on_detector` geometrical projection
pipeline, the `calculate_master_pattern` orchestration, and the numba kernel
`get_pattern`.

Conventions of the embedding:
* float values are modelled as exact rationals (visibility pipeline) or reals
  (kernel, which calls `arccos`); float NaN payloads of optional reflector
  fields are modelled as a boolean flag next to the payload;
* numpy arrays over the navigation positions are modelled as lists; the
  `(nav, n, 3)` arrays produced by `da.matmul(vectors, mats)` are stored
  feature-major (`n` then `nav`), a pure layout transposition;
* the IEEE behaviour of the unguarded gnomonic division `X / Z` (line 321 of
  the source) is modelled by the extended value type `FVal` with `0/0 = NaN`,
  `x/0 = plus or minus infinity`, and comparisons on non-finite values as in
  IEEE-754 (every comparison against NaN is false);
* the external collaborators (orix rotations, diffsims `Miller.round`, the
  inverse stereographic projection) are inputs of the embedded pipeline, in
  line with the repository treating them as opaque operations.
-/

deriving instance DecidableEq for Except

namespace Kikuchipy

/-- A 3-vector with exact rational components, modelling one row of a float64
`(..., 3)` numpy array of the visibility pipeline. -/
structure Vec3 where
  x : ℚ
  y : ℚ
  z : ℚ
deriving DecidableEq

/-- A 3×3 matrix (rows `r0 r1 r2`), modelling one navigation position's
composed transformation matrix (`u_kstar` or `u_k` in `on_detector`). -/
structure Mat3 where
  r0 : Vec3
  r1 : Vec3
  r2 : Vec3
deriving DecidableEq

/-- Row-vector times matrix, the elementwise content of
`da.matmul(hkl, u_kstar)` / `da.matmul(uvw, u_k)` in `on_detector`. -/
def vecMat (v : Vec3) (m : Mat3) : Vec3 :=
  ⟨v.x * m.r0.x + v.y * m.r1.x + v.z * m.r2.x,
   v.x * m.r0.y + v.y * m.r1.y + v.z * m.r2.y,
   v.x * m.r0.z + v.y * m.r1.z + v.z * m.r2.z⟩

/-- Componentwise cross product of index triplets, the numeric content of
`ref2.cross(ref2.transpose())` in `on_detector` (the external library returns
the zone-axis `uvw` triplet as the cross product of the two `hkl` triplets). -/
def cross (a b : Vec3) : Vec3 :=
  ⟨a.y * b.z - a.z * b.y, a.z * b.x - a.x * b.z, a.x * b.y - a.y * b.x⟩

/-- `np.isclose(a, b)` with the numpy defaults `rtol=1e-5`, `atol=1e-8`:
`|a - b| <= atol + rtol * |b|` (the tolerances written as explicit
fractions). -/
def npIsclose (a b : ℚ) : Bool :=
  decide (|a - b| ≤ 1 / 10 ^ 8 + 1 / 10 ^ 5 * |b|)

/-- `da.greater(z, 0)`: the strict upper-hemisphere test on a detector-frame
vector (line 286 / 317 of the source). -/
def isUpper (v : Vec3) : Bool :=
  decide (0 < v.z)

/-- `da.sum(is_upper, axis=nav_axes)` for the per-position detector vectors of
one feature: the number of navigation positions whose z-component is
strictly positive, as a float count. -/
def sumUpper (ds : List Vec3) : ℚ :=
  (ds.map fun v => if 0 < v.z then (1 : ℚ) else 0).sum

/-- `~da.isclose(da.sum(is_upper, axis=nav_axes), 0)`: a feature is "in a
pattern" when its upper-hemisphere count is not close to zero (lines 287 and
318 of the source). -/
def featureInAPattern (ds : List Vec3) : Bool :=
  ! npIsclose (sumUpper ds) 0

/-- The per-reflector test behind `hkl_in_a_pattern`: transform the `hkl`
triplet to the detector frame at every navigation position and apply
`featureInAPattern`. -/
def hklInAPattern (mats : List Mat3) (h : Vec3) : Bool :=
  featureInAPattern (mats.map (vecMat h))

/-- `ref[hkl_in_a_pattern]` (line 295-296): the reflectors kept by
`on_detector`. -/
def visibleReflectors (hkl : List Vec3) (mats : List Mat3) : List Vec3 :=
  hkl.filter (hklInAPattern mats)

/-- All pairwise cross products `ref2.cross(ref2.transpose())` of the
surviving reflectors, flattened row-major (line 299-300). -/
def pairwiseCross (l : List Vec3) : List Vec3 :=
  l.flatMap fun a => l.map fun b => cross a b

/-- `np.isclose(v, 0).all(axis=-1)`: every component of the triplet is close
to zero (the `[000]` test of line 303). -/
def iscloseZeroVec (v : Vec3) : Bool :=
  npIsclose v.x 0 && npIsclose v.y 0 && npIsclose v.z 0

/-- Lines 300-305 of the source: pairwise cross products of the surviving
reflectors, with near-null vectors removed, each remaining triplet reduced by
the external `Miller.round` (the parameter `red`), and the result
deduplicated (`Miller.unique`, modelled at the level of membership by
`List.dedup`). -/
def zoneAxisCandidates (red : Vec3 → Vec3) (vis : List Vec3) : List Vec3 :=
  (((pairwiseCross vis).filter fun v => ! iscloseZeroVec v).map red).dedup

/-- The zone-axis derivation as the specification words it: "forming all
pairwise cross products of the surviving reflectors, dropping duplicates and
the null vector, rounding each remaining vector to its reduced
nearest-integer triplet, then deduplicating again". It inserts an extra
deduplication pass before the rounding, which the source does not perform. -/
def zoneAxisCandidatesSpec (red : Vec3 → Vec3) (vis : List Vec3) : List Vec3 :=
  ((((pairwiseCross vis).dedup).filter fun v => ! iscloseZeroVec v).map red).dedup

/-- IEEE-style extended value: a finite float (exact rational payload), the
two infinities, or NaN.  Models the value of `uvw_d[..., 0] / uvw_d[..., 2]`
including degenerate denominators. -/
inductive FVal where
  | fin (q : ℚ)
  | pinf
  | ninf
  | nan
deriving DecidableEq

/-- IEEE float division of two finite values: `x / 0` is `±∞` for `x ≠ 0` and
NaN for `x = 0`, otherwise the exact quotient. -/
def fdivQ (a b : ℚ) : FVal :=
  if b = 0 then (if 0 < a then .pinf else if a < 0 then .ninf else .nan)
  else .fin (a / b)

/-- IEEE comparison `a >= q` with a finite right-hand side: false whenever
`a` is NaN, true for `+∞`, false for `-∞`. -/
def fgeq (a : FVal) (q : ℚ) : Bool :=
  match a with
  | .fin x => decide (q ≤ x)
  | .pinf => true
  | .ninf => false
  | .nan => false

/-- IEEE comparison `a <= q` with a finite right-hand side: false whenever
`a` is NaN, false for `+∞`, true for `-∞`. -/
def fleq (a : FVal) (q : ℚ) : Bool :=
  match a with
  | .fin x => decide (x ≤ q)
  | .pinf => false
  | .ninf => true
  | .nan => false

/-- `uvw_xg = uvw_d[..., 0] / uvw_d[..., 2]` (line 321): the gnomonic x
coordinate of a detector-frame vector; the division is performed with no
guard on the denominator. -/
def gnomonicXg (v : Vec3) : FVal :=
  fdivQ v.x v.z

/-- `uvw_yg = uvw_d[..., 1] / uvw_d[..., 2]` (line 322). -/
def gnomonicYg (v : Vec3) : FVal :=
  fdivQ v.y v.z

/-- One navigation position's gnomonic x/y ranges (`detector.x_range`,
`detector.y_range`). -/
structure GnomonicBounds where
  xlo : ℚ
  xhi : ℚ
  ylo : ℚ
  yhi : ℚ
deriving DecidableEq

/-- Lines 330-333: extend the gnomonic ranges by one pixel scale on each
side, to include zone axes on the detector border. -/
def extendBounds (xs ys : ℚ) (b : GnomonicBounds) : GnomonicBounds :=
  ⟨b.xlo - xs, b.xhi + xs, b.ylo - ys, b.yhi + ys⟩

/-- `within_x = logical_and(uvw_xg >= x_range[..., 0], uvw_xg <= x_range[..., 1])`
(line 339). -/
def withinX (b : GnomonicBounds) (v : Vec3) : Bool :=
  fgeq (gnomonicXg v) b.xlo && fleq (gnomonicXg v) b.xhi

/-- `within_y = logical_and(uvw_yg >= y_range[..., 0], uvw_yg <= y_range[..., 1])`
(line 340). -/
def withinY (b : GnomonicBounds) (v : Vec3) : Bool :=
  fgeq (gnomonicYg v) b.ylo && fleq (gnomonicYg v) b.yhi

/-- `within_x * within_y`: the position is inside the (already extended)
gnomonic bounds in both coordinates (line 341). -/
def withinPos (b : GnomonicBounds) (v : Vec3) : Bool :=
  withinX b v && withinY b v

/-- Lines 317-343: a zone axis is "in some pattern" when its
upper-hemisphere count is nonzero and at least one navigation position lies
within the (extended) gnomonic bounds.  `ds` holds the detector-frame vector
at each navigation position, `bounds` the extended per-position ranges. -/
def zoneAxisInAPattern (bounds : List GnomonicBounds) (ds : List Vec3) : Bool :=
  featureInAPattern ds && (ds.zip bounds).any fun vb => withinPos vb.2 vb.1

/-- The detector data consumed by `on_detector`: navigation shape, the raw
per-position gnomonic ranges, and the pixel scales in gnomonic units. -/
structure DetectorGeom where
  navigation_shape : List ℕ
  bounds : List GnomonicBounds
  xScale : ℚ
  yScale : ℚ
deriving DecidableEq

/-- The content of the `GeometricalKikuchiPatternSimulation` assembled at the
end of `on_detector`: each visible reflector (zone axis) paired with its
per-position in-pattern booleans (`hkl_in_pattern`, `uvw_in_pattern`). -/
structure SimResult where
  reflectors : List (Vec3 × List Bool)
  zoneAxes : List (Vec3 × List Bool)
deriving DecidableEq

/-- `KikuchiPatternSimulator.on_detector`, lines 246-388 of the source.
`rotShape` is `rotations.shape`; `ukstar` and `uk` are the per-position
composed matrices taking `hkl` (reciprocal) and `uvw` (direct) triplets to
the detector frame (external rotation algebra, §4.1 of the specification);
`red` is the external `Miller.round` index reduction.  The shape precondition
is checked before anything else; the pipeline then keeps the reflectors in
some pattern, derives zone-axis candidates from the survivors only, and keeps
the candidates in some pattern, storing per-position upper-hemisphere flags
for both. -/
def on_detector (det : DetectorGeom) (rotShape : List ℕ) (hkl : List Vec3)
    (ukstar uk : List Mat3) (red : Vec3 → Vec3) : Except String SimResult :=
  if det.navigation_shape ≠ [1] ∧ det.navigation_shape ≠ rotShape then
    .error "`detector.navigation_shape` is not (1,) or equal to `rotations.shape`"
  else
    let vis := visibleReflectors hkl ukstar
    let candidates := zoneAxisCandidates red vis
    let extB := det.bounds.map (extendBounds det.xScale det.yScale)
    let visZA := candidates.filter fun u => zoneAxisInAPattern extB (uk.map (vecMat u))
    .ok
      { reflectors := vis.map fun h => (h, (ukstar.map (vecMat h)).map isUpper)
        zoneAxes := visZA.map fun u => (u, (uk.map (vecMat u)).map isUpper) }

/-- The features of a stored collection whose in-pattern flag is true at
navigation index `p` (a missing flag counts as false). -/
def flaggedAt (entries : List (Vec3 × List Bool)) (p : ℕ) : List Vec3 :=
  (entries.filter fun e => e.2.getD p false).map Prod.fst

/-- A 3-vector with real components, for the master-pattern kernel. -/
structure Vec3R where
  x : ℝ
  y : ℝ
  z : ℝ

/-- Modelled from the spec: `vec_dot` from `kikuchipy._utils.numba` is not
under `src/`; per §4.4 of the specification the kernel compares "the
reflector direction and the grid direction" through their dot product, so
`vec_dot` is the Euclidean dot product of two 3-vectors. -/
noncomputable def vec_dot (a b : Vec3R) : ℝ :=
  a.x * b.x + a.y * b.y + a.z * b.z

/-- The body of the double loop of `get_pattern` (lines 703-711): the
contribution of one reflector (intensity `i`, unit direction `r`, Bragg
half-angle `θ`) to one grid direction `h`.  `|D| <= 1e-7` adds half the
intensity; otherwise the full intensity is added exactly when
`arccos D` lies in `[π/2 - θ, π/2]`. -/
noncomputable def bandContribution (i : ℝ) (r : Vec3R) (θ : ℝ) (h : Vec3R) : ℝ :=
  if |vec_dot r h| ≤ 1e-7 then 0.5 * i
  else if Real.arccos (vec_dot r h) ≤ Real.pi / 2 ∧
      Real.pi / 2 - θ ≤ Real.arccos (vec_dot r h) then i
  else 0

/-- One iteration of the outer reflector loop of `get_pattern` (lines
703-711): add the reflector's `bandContribution` into every grid point's
accumulator. -/
noncomputable def kernelStep (xyz_hemi : List Vec3R) (pattern : List ℝ)
    (irt : ℝ × Vec3R × ℝ) : List ℝ :=
  List.zipWith (fun p h => p + bandContribution irt.1 irt.2.1 irt.2.2 h) pattern xyz_hemi

/-- The numba kernel `get_pattern` (lines 690-712): outer loop over the
reflectors (each with its intensity and Bragg angle), inner loop over the
hemisphere grid, accumulating each reflector's `bandContribution` into the
per-grid-point pattern, starting from `np.zeros(n)`. -/
noncomputable def get_pattern (intensity : List ℝ) (xyz_hemi xyz_reflector : List Vec3R)
    (theta_reflector : List ℝ) : List ℝ :=
  (intensity.zip (xyz_reflector.zip theta_reflector)).foldl (kernelStep xyz_hemi)
    (List.replicate xyz_hemi.length 0)

/-- One entry of the simulator's `ReciprocalLatticeVector` set as consumed by
`calculate_master_pattern`: a direction, the optional Bragg angle `theta` and
the optional complex structure factor.  A float-NaN field ("not yet
calculated") is modelled as the payload plus a NaN flag; arithmetic on a
flagged payload is not modelled. -/
structure Reflector where
  direction : Vec3R
  theta : ℝ
  thetaIsNaN : Bool
  structureFactor : ℂ
  sfIsNaN : Bool

/-- `_raise_if_no_theta` (lines 557-562): the check reads
`np.isnan(self.reflectors.theta[0])`, i.e. only the first reflector. -/
def noThetaCheck (refl : List Reflector) : Bool :=
  match refl.head? with
  | some r => r.thetaIsNaN
  | none => false

/-- `_raise_if_no_structure_factor` (lines 564-570): reads
`np.isnan(self.reflectors.structure_factor[0])`, i.e. only the first
reflector. -/
def noSFCheck (refl : List Reflector) : Bool :=
  match refl.head? with
  | some r => r.sfIsNaN
  | none => false

/-- `ValidHemispheres`: which hemisphere(s) to calculate. -/
inductive Hemisphere where
  | upper
  | lower
  | both
deriving DecidableEq

/-- Modelled from the spec: `poles_from_hemisphere` from
`kikuchipy._utils.vector` is not under `src/`; per the specification, "upper"
and "lower" select one pole each and "both" stacks the two pixel grids along
a leading axis, so it returns one pole per hemisphere, two for "both". -/
def polesFromHemisphere : Hemisphere → List Vec3R
  | .upper => [⟨0, 0, 1⟩]
  | .lower => [⟨0, 0, -1⟩]
  | .both => [⟨0, 0, 1⟩, ⟨0, 0, -1⟩]

/-- The errors raised by `calculate_master_pattern`, lines 162-163 and
177-181 of the source. -/
inductive MPError where
  | noTheta
  | noStructureFactor
  | unknownScaling (s : String)
deriving DecidableEq

/-- The `match scaling` of lines 169-181: `"linear"` gives `|F|`, `"square"`
gives `|F * conj F|`, `None` gives all ones, anything else raises the
unknown-scaling ValueError. -/
noncomputable def scalingIntensity (refl : List Reflector) :
    Option String → Except MPError (List ℝ)
  | some s =>
    if s = "linear" then .ok (refl.map fun r => Complex.abs r.structureFactor)
    else if s = "square" then
      .ok (refl.map fun r => Complex.abs (r.structureFactor * (starRingEnd ℂ) r.structureFactor))
    else .error (.unknownScaling s)
  | none => .ok (List.replicate refl.length 1)

/-- `np.linspace(a, b, n)` (line 185); for `n = 1` numpy returns `[a]`, which
the formula also yields since division by zero is zero. -/
noncomputable def linspace (a b : ℝ) (n : ℕ) : List ℝ :=
  (List.range n).map fun i : ℕ => a + (b - a) * (i : ℝ) / ((n : ℝ) - 1)

/-- `X, Y = np.meshgrid(arr, arr)` followed by `ravel()` (lines 186-188):
the raveled grid pairs `(X[k], Y[k])`, `Y` varying along the outer index. -/
noncomputable def gridPoints (size : ℕ) : List (ℝ × ℝ) :=
  (linspace (-1) 1 size).flatMap fun yv =>
    (linspace (-1) 1 size).map fun xv => (xv, yv)

/-- `Vector3d(self.reflectors).unit` (line 183): normalise a direction. -/
noncomputable def unitVec (v : Vec3R) : Vec3R :=
  let n := Real.sqrt (v.x ^ 2 + v.y ^ 2 + v.z ^ 2)
  ⟨v.x / n, v.y / n, v.z / n⟩

/-- Row-major `reshape(-1, s, s)` of one pole's flat pattern: split a list of
length `s * s` into `s` rows of `s`. -/
def chunk (s : ℕ) (l : List α) : List (List α) :=
  (List.range (l.length / s)).map fun i => (l.drop (i * s)).take s

/-- `calculate_master_pattern` (lines 122-215), parameterised over the kernel
so that the validation steps can be stated independently of any pattern
computation, and over the external inverse stereographic projection
`stereo2sphere` (orix).  Returns the `(n_poles, size, size)` nested pattern
array (the hemisphere axis before `squeeze`). -/
noncomputable def calculate_master_pattern_gen
    (kernel : List ℝ → List Vec3R → List Vec3R → List ℝ → List ℝ)
    (refl : List Reflector) (half_size : ℕ) (hemisphere : Hemisphere)
    (scaling : Option String) (stereo2sphere : Vec3R → ℝ × ℝ → Vec3R) :
    Except MPError (List (List (List ℝ))) :=
  if noThetaCheck refl then .error .noTheta
  else if noSFCheck refl then .error .noStructureFactor
  else
    let size := 2 * half_size + 1
    let poles := polesFromHemisphere hemisphere
    match scalingIntensity refl scaling with
    | .error e => .error e
    | .ok intensity =>
      let xyz_reflector := refl.map fun r => unitVec r.direction
      let theta_reflector := refl.map fun r => r.theta
      let grid := gridPoints size
      let patterns := poles.map fun p =>
        kernel intensity (grid.map (stereo2sphere p)) xyz_reflector theta_reflector
      .ok (patterns.map (chunk size))

/-- `calculate_master_pattern` with the real kernel `get_pattern`
(line 196 of the source). -/
noncomputable def calculate_master_pattern (refl : List Reflector) (half_size : ℕ)
    (hemisphere : Hemisphere) (scaling : Option String)
    (stereo2sphere : Vec3R → ℝ × ℝ → Vec3R) : Except MPError (List (List (List ℝ))) :=
  calculate_master_pattern_gen get_pattern refl half_size hemisphere scaling stereo2sphere

/-- The numpy shape of the `(n_poles, size, size)` nested pattern array. -/
def mpDims (p : List (List (List ℝ))) : List ℕ :=
  [p.length, (p.headD []).length, ((p.headD []).headD []).length]

/-- `np.squeeze`: remove every axis of length 1 from a shape. -/
def npSqueeze (shape : List ℕ) : List ℕ :=
  shape.filter fun n => n ≠ 1

/-- The shape of the array stored in the returned `EBSDMasterPattern`:
`patterns.reshape(-1, size, size).squeeze()` (line 199). -/
def mpShape (p : List (List (List ℝ))) : List ℕ :=
  npSqueeze (mpDims p)

/-- Whether an `Except` result is a success. -/
def exceptIsOk : Except ε α → Bool
  | .ok _ => true
  | .error _ => false

/-! ### Helper lemmas -/

theorem sumUpper_nonneg (ds : List Vec3) : 0 ≤ sumUpper ds := by
  induction ds with
  | nil => simp [sumUpper]
  | cons a t ih =>
    simp only [sumUpper, List.map_cons, List.sum_cons] at ih ⊢
    split <;> linarith

theorem sumUpper_small_iff (ds : List Vec3) :
    sumUpper ds ≤ 1 / 10 ^ 8 ↔ ∀ v ∈ ds, ¬ 0 < v.z := by
  induction ds with
  | nil => norm_num [sumUpper]
  | cons a t ih =>
    have ht := sumUpper_nonneg t
    by_cases ha : 0 < a.z
    · have he : sumUpper (a :: t) = 1 + sumUpper t := by
        simp [sumUpper, ha]
      rw [he]
      constructor
      · intro h; exfalso; norm_num at h; linarith
      · intro h; exact absurd ha (h a (List.mem_cons_self a t))
    · have he : sumUpper (a :: t) = sumUpper t := by
        simp [sumUpper, ha]
      rw [he, ih]
      constructor
      · intro h v hv
        rcases List.mem_cons.mp hv with rfl | hv'
        · exact ha
        · exact h v hv'
      · intro h v hv; exact h v (List.mem_cons_of_mem a hv)

theorem npIsclose_zero (q : ℚ) (hq : 0 ≤ q) : npIsclose q 0 = decide (q ≤ 1 / 10 ^ 8) := by
  simp [npIsclose, abs_of_nonneg hq]

theorem featureInAPattern_iff (ds : List Vec3) :
    featureInAPattern ds = true ↔ ∃ v ∈ ds, 0 < v.z := by
  rw [featureInAPattern, npIsclose_zero _ (sumUpper_nonneg ds), Bool.not_eq_true',
    decide_eq_false_iff_not, sumUpper_small_iff]
  push_neg
  simp

theorem on_detector_ok_elim {det : DetectorGeom} {rotShape : List ℕ} {hkl : List Vec3}
    {ukstar uk : List Mat3} {red : Vec3 → Vec3} {res : SimResult}
    (h : on_detector det rotShape hkl ukstar uk red = .ok res) :
    res =
      { reflectors := (visibleReflectors hkl ukstar).map
          fun v => (v, (ukstar.map (vecMat v)).map isUpper)
        zoneAxes := ((zoneAxisCandidates red (visibleReflectors hkl ukstar)).filter
          fun u => zoneAxisInAPattern (det.bounds.map (extendBounds det.xScale det.yScale))
            (uk.map (vecMat u))).map
          fun u => (u, (uk.map (vecMat u)).map isUpper) } := by
  unfold on_detector at h
  split at h
  · exact absurd h (by simp)
  · exact (Except.ok.inj h).symm

/-! ### Claims -/

/-- Claim C1: `on_detector` raises its ValueError exactly when the detector
navigation shape is neither `(1,)` nor the rotation batch shape; a `(1,)`
detector accepts every batch shape; and the outcome of the check does not
depend on any of the projection inputs (`hkl`, the transformation matrices,
the index reduction), which are universally quantified here, so the error is
decided before any projection computation. -/
theorem on_detector_shape_check (det : DetectorGeom) (rotShape : List ℕ) (hkl : List Vec3)
    (ukstar uk : List Mat3) (red : Vec3 → Vec3) :
    ((∃ e, on_detector det rotShape hkl ukstar uk red = .error e) ↔
      (det.navigation_shape ≠ [1] ∧ det.navigation_shape ≠ rotShape)) ∧
    (det.navigation_shape = [1] →
      ∃ res, on_detector det rotShape hkl ukstar uk red = .ok res) := by
  unfold on_detector
  split
  case isTrue h =>
    refine ⟨⟨fun _ => h, fun _ => ⟨_, rfl⟩⟩, ?_⟩
    intro h1
    exact absurd h1 h.1
  case isFalse h =>
    constructor
    · constructor
      · rintro ⟨e, he⟩
        simp at he
      · intro hc
        exact absurd hc h
    · intro _
      exact ⟨_, rfl⟩

/-- Witness for C1 at a concrete detector with navigation shape `(1,)` and a
batch of shape `(2, 3)`: the projection is accepted. -/
theorem on_detector_shape_check_witness :
    ∃ res, on_detector ⟨[1], [⟨-1, 1, -1, 1⟩], 1/10, 1/10⟩ [2, 3] [⟨0, 0, 1⟩]
      [⟨⟨1, 0, 0⟩, ⟨0, 1, 0⟩, ⟨0, 0, 1⟩⟩] [⟨⟨1, 0, 0⟩, ⟨0, 1, 0⟩, ⟨0, 0, 1⟩⟩] id = .ok res :=
  (on_detector_shape_check ⟨[1], [⟨-1, 1, -1, 1⟩], 1/10, 1/10⟩ [2, 3] [⟨0, 0, 1⟩]
    [⟨⟨1, 0, 0⟩, ⟨0, 1, 0⟩, ⟨0, 0, 1⟩⟩] [⟨⟨1, 0, 0⟩, ⟨0, 1, 0⟩, ⟨0, 0, 1⟩⟩] id).2 rfl

/-- Claim C3: a reflector is kept by `on_detector` (appears among the stored
visible reflectors) iff at least one navigation position has its
detector-frame direction with z-component strictly greater than zero, and
the zone axes of the result are derived from exactly that kept set. -/
theorem visible_reflectors_characterization (det : DetectorGeom) (rotShape : List ℕ)
    (hkl : List Vec3) (ukstar uk : List Mat3) (red : Vec3 → Vec3) (res : SimResult)
    (v : Vec3) (hok : on_detector det rotShape hkl ukstar uk red = .ok res) :
    (v ∈ res.reflectors.map Prod.fst ↔ v ∈ hkl ∧ ∃ M ∈ ukstar, 0 < (vecMat v M).z) ∧
    (∀ u ∈ res.zoneAxes.map Prod.fst,
      u ∈ zoneAxisCandidates red (res.reflectors.map Prod.fst)) := by
  obtain rfl := on_detector_ok_elim hok
  have hfst : ((visibleReflectors hkl ukstar).map
      fun v => (v, (ukstar.map (vecMat v)).map isUpper)).map Prod.fst =
      visibleReflectors hkl ukstar := by
    simp [List.map_map, Function.comp_def]
  constructor
  · rw [hfst, visibleReflectors, List.mem_filter, hklInAPattern, featureInAPattern_iff]
    simp
  · intro u hu
    rw [hfst]
    simp only [List.map_map, List.mem_map, Function.comp_apply] at hu
    obtain ⟨w, hw, rfl⟩ := hu
    exact (List.mem_filter.mp hw).1

/-- Witness for C3: on a one-position, one-reflector instance the reflector
`(0,0,1)` is kept and its upper-hemisphere evidence is recovered. -/
theorem visible_reflectors_characterization_witness :
    (⟨0, 0, 1⟩ : Vec3) ∈ ([⟨0, 0, 1⟩] : List Vec3) ∧
    ∃ M ∈ ([⟨⟨1, 0, 0⟩, ⟨0, 1, 0⟩, ⟨0, 0, 1⟩⟩] : List Mat3),
      0 < (vecMat ⟨0, 0, 1⟩ M).z :=
  (visible_reflectors_characterization ⟨[1], [⟨-1, 1, -1, 1⟩], 1/10, 1/10⟩ [1] [⟨0, 0, 1⟩]
    [⟨⟨1, 0, 0⟩, ⟨0, 1, 0⟩, ⟨0, 0, 1⟩⟩] [⟨⟨1, 0, 0⟩, ⟨0, 1, 0⟩, ⟨0, 0, 1⟩⟩] id
    ⟨[(⟨0, 0, 1⟩, [true])], []⟩ ⟨0, 0, 1⟩ (by
      norm_num [on_detector, visibleReflectors, hklInAPattern, featureInAPattern,
        sumUpper, npIsclose, vecMat, isUpper, zoneAxisCandidates, pairwiseCross,
        cross, iscloseZeroVec])).1.mp (by simp)

theorem withinX_iff (b : GnomonicBounds) (v : Vec3) :
    withinX b v = true ↔ v.z ≠ 0 ∧ b.xlo ≤ v.x / v.z ∧ v.x / v.z ≤ b.xhi := by
  by_cases hz : v.z = 0
  · simp only [withinX, gnomonicXg, fdivQ, if_pos hz]
    rcases lt_trichotomy 0 v.x with h | h | h
    · simp [h, fgeq, fleq, hz]
    · simp [← h, fgeq, fleq, hz]
    · have h' : ¬ 0 < v.x := not_lt.mpr h.le
      simp [h', h, fgeq, fleq, hz]
  · simp [withinX, gnomonicXg, fdivQ, hz, fgeq, fleq]

theorem withinY_iff (b : GnomonicBounds) (v : Vec3) :
    withinY b v = true ↔ v.z ≠ 0 ∧ b.ylo ≤ v.y / v.z ∧ v.y / v.z ≤ b.yhi := by
  by_cases hz : v.z = 0
  · simp only [withinY, gnomonicYg, fdivQ, if_pos hz]
    rcases lt_trichotomy 0 v.y with h | h | h
    · simp [h, fgeq, fleq, hz]
    · simp [← h, fgeq, fleq, hz]
    · have h' : ¬ 0 < v.y := not_lt.mpr h.le
      simp [h', h, fgeq, fleq, hz]
  · simp [withinY, gnomonicYg, fdivQ, hz, fgeq, fleq]

theorem withinPos_iff (b : GnomonicBounds) (v : Vec3) :
    withinPos b v = true ↔
      v.z ≠ 0 ∧ (b.xlo ≤ v.x / v.z ∧ v.x / v.z ≤ b.xhi) ∧
        (b.ylo ≤ v.y / v.z ∧ v.y / v.z ≤ b.yhi) := by
  rw [withinPos, Bool.and_eq_true, withinX_iff, withinY_iff]
  tauto

theorem zoneAxisInAPattern_ext_iff (bounds : List GnomonicBounds) (xs ys : ℚ)
    (ds : List Vec3) :
    zoneAxisInAPattern (bounds.map (extendBounds xs ys)) ds = true ↔
      (∃ v ∈ ds, 0 < v.z) ∧
      ∃ p ∈ ds.zip bounds, p.1.z ≠ 0 ∧
        (p.2.xlo - xs ≤ p.1.x / p.1.z ∧ p.1.x / p.1.z ≤ p.2.xhi + xs) ∧
        (p.2.ylo - ys ≤ p.1.y / p.1.z ∧ p.1.y / p.1.z ≤ p.2.yhi + ys) := by
  rw [zoneAxisInAPattern, Bool.and_eq_true, featureInAPattern_iff]
  refine and_congr_right fun _ => ?_
  rw [List.zip_map_right, List.any_map, List.any_eq_true]
  constructor
  · rintro ⟨vb, hmem, hw⟩
    exact ⟨vb, hmem, by simpa [extendBounds] using (withinPos_iff _ _).mp hw⟩
  · rintro ⟨vb, hmem, hw⟩
    exact ⟨vb, hmem, (withinPos_iff _ _).mpr (by simpa [extendBounds] using hw)⟩

theorem on_detector_zoneAxes_map (det : DetectorGeom) (rotShape : List ℕ)
    (hkl : List Vec3) (ukstar uk : List Mat3) (red : Vec3 → Vec3) :
    (on_detector det rotShape hkl ukstar uk red).map (fun res => res.zoneAxes.map Prod.fst) =
      (on_detector det rotShape hkl ukstar uk red).map (fun _ =>
        (zoneAxisCandidates red (visibleReflectors hkl ukstar)).filter fun u =>
          zoneAxisInAPattern (det.bounds.map (extendBounds det.xScale det.yScale))
            (uk.map (vecMat u))) := by
  unfold on_detector
  split
  · rfl
  · simp [Except.map, List.map_map, Function.comp_def]

/-- Claim C4: a zone axis appears in the result of `on_detector` iff it is a
candidate, has a strictly positive detector-frame z-component at some
navigation position, and at some navigation position its gnomonic projection
`(X/Z, Y/Z)` lies within the detector's gnomonic ranges extended on each side
by one pixel's x-scale and y-scale. -/
theorem zone_axis_visibility_characterization (det : DetectorGeom) (rotShape : List ℕ)
    (hkl : List Vec3) (ukstar uk : List Mat3) (red : Vec3 → Vec3) (u : Vec3) :
    (u ∈ ((zoneAxisCandidates red (visibleReflectors hkl ukstar)).filter fun w =>
        zoneAxisInAPattern (det.bounds.map (extendBounds det.xScale det.yScale))
          (uk.map (vecMat w))) ↔
      u ∈ zoneAxisCandidates red (visibleReflectors hkl ukstar) ∧
      (∃ M ∈ uk, 0 < (vecMat u M).z) ∧
      (∃ p ∈ (uk.map (vecMat u)).zip det.bounds, p.1.z ≠ 0 ∧
        (p.2.xlo - det.xScale ≤ p.1.x / p.1.z ∧ p.1.x / p.1.z ≤ p.2.xhi + det.xScale) ∧
        (p.2.ylo - det.yScale ≤ p.1.y / p.1.z ∧ p.1.y / p.1.z ≤ p.2.yhi + det.yScale))) ∧
    (on_detector det rotShape hkl ukstar uk red).map (fun res => res.zoneAxes.map Prod.fst) =
      (on_detector det rotShape hkl ukstar uk red).map (fun _ =>
        (zoneAxisCandidates red (visibleReflectors hkl ukstar)).filter fun w =>
          zoneAxisInAPattern (det.bounds.map (extendBounds det.xScale det.yScale))
            (uk.map (vecMat w))) := by
  refine ⟨?_, on_detector_zoneAxes_map det rotShape hkl ukstar uk red⟩
  rw [List.mem_filter, zoneAxisInAPattern_ext_iff]
  simp [List.mem_map, and_assoc]

/-- Claim C5: the zone-axis candidate set described by the specification
(cross products of the surviving reflectors, duplicates and the null vector
dropped, each vector reduced, deduplicated again) has exactly the members of
the set the code computes (which never deduplicates before the reduction),
and that candidate set is exactly what `on_detector` filters by detector
visibility to obtain the stored zone axes. -/
theorem zone_axis_candidate_set_eq (det : DetectorGeom) (rotShape : List ℕ)
    (hkl : List Vec3) (ukstar uk : List Mat3) (red : Vec3 → Vec3) (v : Vec3) :
    (v ∈ zoneAxisCandidatesSpec red (visibleReflectors hkl ukstar) ↔
      v ∈ zoneAxisCandidates red (visibleReflectors hkl ukstar)) ∧
    (on_detector det rotShape hkl ukstar uk red).map (fun res => res.zoneAxes.map Prod.fst) =
      (on_detector det rotShape hkl ukstar uk red).map (fun _ =>
        (zoneAxisCandidates red (visibleReflectors hkl ukstar)).filter fun u =>
          zoneAxisInAPattern (det.bounds.map (extendBounds det.xScale det.yScale))
            (uk.map (vecMat u))) := by
  refine ⟨?_, on_detector_zoneAxes_map det rotShape hkl ukstar uk red⟩
  simp [zoneAxisCandidatesSpec, zoneAxisCandidates, List.mem_dedup, List.mem_filter,
    List.mem_map]

/-- Claim C9: in any simulation produced by `on_detector`, the reflectors
whose in-pattern flag is true at a navigation index form a subset of the
stored visible reflectors, and likewise for zone axes; stated as an equation
on the (possibly failing) result. -/
theorem in_pattern_subset_of_visible (det : DetectorGeom) (rotShape : List ℕ)
    (hkl : List Vec3) (ukstar uk : List Mat3) (red : Vec3 → Vec3) (p : ℕ) :
    (on_detector det rotShape hkl ukstar uk red).map (fun res =>
      decide (∀ v ∈ flaggedAt res.reflectors p, v ∈ res.reflectors.map Prod.fst) &&
      decide (∀ u ∈ flaggedAt res.zoneAxes p, u ∈ res.zoneAxes.map Prod.fst)) =
    (on_detector det rotShape hkl ukstar uk red).map (fun _ => true) := by
  have key : ∀ (entries : List (Vec3 × List Bool)) (x : Vec3),
      x ∈ flaggedAt entries p → x ∈ entries.map Prod.fst := by
    intro entries x hx
    simp only [flaggedAt, List.mem_map] at hx ⊢
    obtain ⟨e, he, rfl⟩ := hx
    exact ⟨e, (List.mem_filter.mp he).1, rfl⟩
  unfold on_detector
  split
  · rfl
  · simp only [Except.map]
    congr 1
    rw [Bool.and_eq_true, decide_eq_true_eq, decide_eq_true_eq]
    exact ⟨fun v => key _ v, fun u => key _ u⟩

/-- Counterexample to claim C6: the gnomonic division of `on_detector` is not
behind any tolerance-gated branch.  A zero denominator produces NaN or an
infinity, and an arbitrarily small near-zero denominator is divided through
as-is (here `z = 10⁻⁹` yields the raw quotient `10⁹`). -/
theorem gnomonic_division_produces_nonfinite :
    gnomonicXg ⟨0, 3, 0⟩ = FVal.nan ∧ gnomonicXg ⟨2, 3, 0⟩ = FVal.pinf ∧
    gnomonicYg ⟨2, -3, 0⟩ = FVal.ninf ∧
    gnomonicXg ⟨1, 0, 1 / 10 ^ 9⟩ = FVal.fin (10 ^ 9) := by
  refine ⟨?_, ?_, ?_, ?_⟩ <;> norm_num [gnomonicXg, gnomonicYg, fdivQ]

/-- Claim C6 as amended: `get_pattern`'s near-zero dot products are indeed
tolerance-gated (`|D| ≤ 1e-7` contributes half the intensity without testing
the band), while the gnomonic division of `on_detector` has no tolerance
gate; a degenerate (zero) denominator produces a non-finite value, but IEEE
comparison semantics make every such position fail the gnomonic-bounds test,
so the visibility decision is a plain boolean unaffected by NaN/Inf. -/
theorem degenerate_values_never_visible (b : GnomonicBounds) (v : Vec3) (i θ : ℝ)
    (r h : Vec3R) :
    (v.z = 0 → withinPos b v = false) ∧
    (|vec_dot r h| ≤ 1e-7 → bandContribution i r θ h = 0.5 * i) := by
  constructor
  · intro hz
    have hx : withinX b v = false := by
      simp only [withinX, gnomonicXg, fdivQ, if_pos hz]
      rcases lt_trichotomy 0 v.x with h | h | h
      · simp [h, fgeq, fleq]
      · simp [← h, fgeq, fleq]
      · have h' : ¬ 0 < v.x := not_lt.mpr h.le
        simp [h', h, fgeq, fleq]
    simp [withinPos, hx]
  · intro hd
    rw [bandContribution, if_pos hd]

/-- Witness for the amended C6 at concrete degenerate inputs: a zero
denominator position is never within bounds, and an orthogonal
reflector/grid pair receives exactly half the intensity. -/
theorem degenerate_values_never_visible_witness :
    withinPos ⟨-1, 1, -1, 1⟩ ⟨2, 3, 0⟩ = false ∧
    bandContribution 3 ⟨1, 0, 0⟩ 1 ⟨0, 1, 0⟩ = 0.5 * 3 :=
  ⟨(degenerate_values_never_visible ⟨-1, 1, -1, 1⟩ ⟨2, 3, 0⟩ 3 1 ⟨1, 0, 0⟩ ⟨0, 1, 0⟩).1 rfl,
   (degenerate_values_never_visible ⟨-1, 1, -1, 1⟩ ⟨2, 3, 0⟩ 3 1 ⟨1, 0, 0⟩ ⟨0, 1, 0⟩).2
     (by norm_num [vec_dot])⟩

theorem getD_zipWith_add (pat : List ℝ) (H : List Vec3R) (g : Vec3R → ℝ) (j : ℕ)
    (hlen : pat.length = H.length) (hj : j < H.length) :
    (List.zipWith (fun p h => p + g h) pat H).getD j 0 =
      pat.getD j 0 + g (H.getD j ⟨0, 0, 0⟩) := by
  induction pat generalizing H j with
  | nil =>
    cases H with
    | nil => simp at hj
    | cons h hs => simp at hlen
  | cons p ps ih =>
    cases H with
    | nil => simp at hj
    | cons h hs =>
      cases j with
      | zero => simp
      | succ k =>
        simp only [List.zipWith_cons_cons, List.getD_cons_succ]
        exact ih hs k (by simpa using hlen) (by simpa using hj)

theorem kernelStep_length (H : List Vec3R) (pat : List ℝ) (irt : ℝ × Vec3R × ℝ)
    (hlen : pat.length = H.length) : (kernelStep H pat irt).length = H.length := by
  simp [kernelStep, hlen]

theorem foldl_kernelStep_length (H : List Vec3R) (L : List (ℝ × Vec3R × ℝ)) (acc : List ℝ)
    (hacc : acc.length = H.length) : (L.foldl (kernelStep H) acc).length = H.length := by
  induction L generalizing acc with
  | nil => simpa using hacc
  | cons a t ih => exact ih _ (kernelStep_length H acc a hacc)

theorem get_pattern_length (I : List ℝ) (H R : List Vec3R) (T : List ℝ) :
    (get_pattern I H R T).length = H.length := by
  rw [get_pattern]
  exact foldl_kernelStep_length H _ _ (List.length_replicate _ _)

theorem kernelStep_getD_aux (H : List Vec3R) (pat : List ℝ) (irt : ℝ × Vec3R × ℝ) (j : ℕ)
    (hlen : pat.length = H.length) (hj : j < H.length) :
    (kernelStep H pat irt).getD j 0 =
      pat.getD j 0 + bandContribution irt.1 irt.2.1 irt.2.2 (H.getD j ⟨0, 0, 0⟩) := by
  rw [kernelStep]
  exact getD_zipWith_add pat H _ j hlen hj

theorem foldl_kernelStep_getD (H : List Vec3R) (L : List (ℝ × Vec3R × ℝ)) (acc : List ℝ)
    (hacc : acc.length = H.length) (j : ℕ) (hj : j < H.length) :
    (L.foldl (kernelStep H) acc).getD j 0 =
      acc.getD j 0 +
        (L.map fun irt => bandContribution irt.1 irt.2.1 irt.2.2 (H.getD j ⟨0, 0, 0⟩)).sum := by
  induction L generalizing acc with
  | nil => simp
  | cons a t ih =>
    rw [List.foldl_cons, ih _ (kernelStep_length H acc a hacc),
      kernelStep_getD_aux H acc a j hacc hj]
    simp [add_assoc]

theorem getD_replicate_zero (n j : ℕ) : (List.replicate n (0 : ℝ)).getD j 0 = 0 := by
  rcases lt_or_ge j n with h | h
  · simp [List.getD_eq_getElem?_getD, List.getElem?_replicate, h]
  · have hn : (List.replicate n (0 : ℝ))[j]? = none :=
      List.getElem?_eq_none (by simpa using h)
    simp [List.getD_eq_getElem?_getD, hn]

/-- Claim C2: each grid point's output of `get_pattern` is exactly the sum
over reflectors of the per-pair contribution: half the intensity when the
absolute dot product is at most `1e-7`, otherwise the full intensity exactly
when `arccos D` lies in `[π/2 - θ, π/2]`, otherwise nothing. -/
theorem get_pattern_pointwise_sum (I : List ℝ) (H R : List Vec3R) (T : List ℝ) (j : ℕ)
    (hj : j < H.length) :
    (get_pattern I H R T).getD j 0 =
      ((I.zip (R.zip T)).map fun irt =>
        if |vec_dot irt.2.1 (H.getD j ⟨0, 0, 0⟩)| ≤ 1e-7 then 0.5 * irt.1
        else if Real.arccos (vec_dot irt.2.1 (H.getD j ⟨0, 0, 0⟩)) ≤ Real.pi / 2 ∧
            Real.pi / 2 - irt.2.2 ≤ Real.arccos (vec_dot irt.2.1 (H.getD j ⟨0, 0, 0⟩)) then
          irt.1
        else 0).sum := by
  rw [get_pattern, foldl_kernelStep_getD H _ _ (List.length_replicate _ _) j hj,
    getD_replicate_zero, zero_add]
  simp only [bandContribution]

/-- Witness for C2 on a two-point grid with one reflector: the first grid
point is orthogonal to the reflector and the sum formula applies. -/
theorem get_pattern_pointwise_sum_witness :
    0 < ([⟨0, 0, 1⟩, ⟨1, 0, 0⟩] : List Vec3R).length ∧
    (get_pattern [2] [⟨0, 0, 1⟩, ⟨1, 0, 0⟩] [⟨1, 0, 0⟩] [2]).getD 0 0 =
      ((([2] : List ℝ).zip (([⟨1, 0, 0⟩] : List Vec3R).zip ([2] : List ℝ))).map fun irt =>
        if |vec_dot irt.2.1 (([⟨0, 0, 1⟩, ⟨1, 0, 0⟩] : List Vec3R).getD 0 ⟨0, 0, 0⟩)| ≤ 1e-7
          then 0.5 * irt.1
        else if Real.arccos (vec_dot irt.2.1
              (([⟨0, 0, 1⟩, ⟨1, 0, 0⟩] : List Vec3R).getD 0 ⟨0, 0, 0⟩)) ≤ Real.pi / 2 ∧
            Real.pi / 2 - irt.2.2 ≤ Real.arccos (vec_dot irt.2.1
              (([⟨0, 0, 1⟩, ⟨1, 0, 0⟩] : List Vec3R).getD 0 ⟨0, 0, 0⟩)) then
          irt.1
        else 0).sum :=
  ⟨by simp, get_pattern_pointwise_sum [2] [⟨0, 0, 1⟩, ⟨1, 0, 0⟩] [⟨1, 0, 0⟩] [2] 0 (by simp)⟩

theorem linspace_length (a b : ℝ) (n : ℕ) : (linspace a b n).length = n := by
  rw [linspace, List.length_map, List.length_range]

theorem length_flatMap_map (l : List α) (l' : List β) (g : α → β → γ) :
    (l.flatMap fun y => l'.map (g y)).length = l.length * l'.length := by
  induction l with
  | nil => simp
  | cons a t ih => simp [ih, Nat.succ_mul, Nat.add_comm]

theorem gridPoints_length (s : ℕ) : (gridPoints s).length = s * s := by
  rw [gridPoints, length_flatMap_map, linspace_length]

theorem chunk_length (s : ℕ) (l : List α) : (chunk s l).length = l.length / s := by
  simp [chunk]

theorem chunk_headD_length (s : ℕ) (l : List α) (hs : 1 ≤ s) (hl : l.length = s * s) :
    ((chunk s l).head?.getD []).length = s := by
  obtain ⟨t, rfl⟩ : ∃ t, s = t + 1 := ⟨s - 1, by omega⟩
  have hdiv : l.length / (t + 1) = t + 1 := by
    rw [hl]
    exact Nat.mul_div_cancel _ (by omega)
  have hle : t + 1 ≤ (t + 1) * (t + 1) := Nat.le_mul_of_pos_left _ (by omega)
  rw [chunk, hdiv, List.range_succ_eq_map]
  simp [List.length_take, hl, Nat.min_eq_left hle]

theorem master_pattern_ok_dims (refl : List Reflector) (half_size : ℕ) (hem : Hemisphere)
    (scaling : Option String) (stereo : Vec3R → ℝ × ℝ → Vec3R) (I : List ℝ)
    (h1 : noThetaCheck refl = false) (h2 : noSFCheck refl = false)
    (hI : scalingIntensity refl scaling = .ok I) :
    (calculate_master_pattern refl half_size hem scaling stereo).map mpDims =
      .ok [(polesFromHemisphere hem).length, 2 * half_size + 1, 2 * half_size + 1] := by
  have hs : 1 ≤ 2 * half_size + 1 := by omega
  have hlen : ∀ p : Vec3R,
      (get_pattern I ((gridPoints (2 * half_size + 1)).map (stereo p))
        (refl.map fun r => unitVec r.direction) (refl.map fun r => r.theta)).length =
      (2 * half_size + 1) * (2 * half_size + 1) := by
    intro p
    rw [get_pattern_length, List.length_map, gridPoints_length]
  simp only [calculate_master_pattern, calculate_master_pattern_gen, h1, h2, hI,
    Bool.false_eq_true, if_false]
  cases hem <;>
    simp [mpDims, Except.map, polesFromHemisphere, chunk_length, hlen,
      Nat.mul_div_cancel _ (show 0 < 2 * half_size + 1 by omega),
      chunk_headD_length _ _ hs (hlen _)]

/-- Claim C7 as amended: for every `half_size ≥ 1`, `calculate_master_pattern`
returns one `(2*half_size+1, 2*half_size+1)` grid per hemisphere, the two
grids stacked along a leading axis of size 2 for hemisphere "both"; at
`half_size = 0` the trailing `squeeze` also removes the unit-sized pattern
axes (see the counterexample), so the claim holds only from `half_size = 1`
upward. -/
theorem master_pattern_shape (refl : List Reflector) (half_size : ℕ) (hem : Hemisphere)
    (scaling : Option String) (stereo : Vec3R → ℝ × ℝ → Vec3R) (I : List ℝ)
    (h1 : noThetaCheck refl = false) (h2 : noSFCheck refl = false)
    (hI : scalingIntensity refl scaling = .ok I) (hh : 1 ≤ half_size) :
    (calculate_master_pattern refl half_size hem scaling stereo).map mpShape =
      .ok (if hem = Hemisphere.both then [2, 2 * half_size + 1, 2 * half_size + 1]
           else [2 * half_size + 1, 2 * half_size + 1]) := by
  have hd := master_pattern_ok_dims refl half_size hem scaling stereo I h1 h2 hI
  cases hcalc : calculate_master_pattern refl half_size hem scaling stereo with
  | error e => rw [hcalc] at hd; simp [Except.map] at hd
  | ok mp =>
    rw [hcalc] at hd
    simp only [Except.map] at hd ⊢
    have hdims := Except.ok.inj hd
    have hne : 2 * half_size + 1 ≠ 1 := by omega
    rw [mpShape, hdims]
    cases hem <;> simp [npSqueeze, polesFromHemisphere, hne]

/-- Witness for the amended C7: `half_size = 1`, hemisphere "upper" yields a
`(3, 3)` pattern. -/
theorem master_pattern_shape_witness :
    (calculate_master_pattern [⟨⟨0, 0, 1⟩, 1, false, 1, false⟩] 1 Hemisphere.upper none
        (fun _ _ => ⟨0, 0, 1⟩)).map mpShape =
      .ok (if Hemisphere.upper = Hemisphere.both then [2, 2 * 1 + 1, 2 * 1 + 1]
           else [2 * 1 + 1, 2 * 1 + 1]) :=
  master_pattern_shape [⟨⟨0, 0, 1⟩, 1, false, 1, false⟩] 1 Hemisphere.upper none
    (fun _ _ => ⟨0, 0, 1⟩) (List.replicate 1 1) rfl rfl rfl (by omega)

/-- Counterexample to claim C7: at `half_size = 0` (allowed by the claim,
which asserts the shape for every `half_size ≥ 0`) the `squeeze` removes the
unit-sized pattern axes and the result is a 0-dimensional scalar, not a
`(1, 1)` array. -/
theorem master_pattern_shape_collapses_at_zero :
    (calculate_master_pattern [⟨⟨0, 0, 1⟩, 1, false, 1, false⟩] 0 Hemisphere.upper none
        (fun _ _ => ⟨0, 0, 1⟩)).map mpShape = .ok [] ∧
    ([] : List ℕ) ≠ [2 * 0 + 1, 2 * 0 + 1] := by
  refine ⟨?_, by simp⟩
  have hd := master_pattern_ok_dims [⟨⟨0, 0, 1⟩, 1, false, 1, false⟩] 0 Hemisphere.upper none
    (fun _ _ => ⟨0, 0, 1⟩) (List.replicate 1 1) rfl rfl rfl
  cases hcalc : calculate_master_pattern [⟨⟨0, 0, 1⟩, 1, false, 1, false⟩] 0 Hemisphere.upper
      none (fun _ _ => ⟨0, 0, 1⟩) with
  | error e => rw [hcalc] at hd; simp [Except.map] at hd
  | ok mp =>
    rw [hcalc] at hd
    simp only [Except.map] at hd ⊢
    have hdims := Except.ok.inj hd
    rw [mpShape, hdims]
    simp [npSqueeze, polesFromHemisphere]

/-- Claim C8: `calculate_master_pattern` rejects missing Bragg angles,
missing structure factors, and an unknown scaling string as errors,
independently of the kernel (which is universally quantified, so no pattern
intensity is ever computed on the error paths). -/
theorem master_pattern_rejects_invalid_input
    (kernel : List ℝ → List Vec3R → List Vec3R → List ℝ → List ℝ)
    (refl : List Reflector) (half_size : ℕ) (hem : Hemisphere) (scaling : Option String)
    (s : String) (stereo : Vec3R → ℝ × ℝ → Vec3R) :
    (noThetaCheck refl = true →
      calculate_master_pattern_gen kernel refl half_size hem scaling stereo =
        .error .noTheta) ∧
    (noThetaCheck refl = false → noSFCheck refl = true →
      calculate_master_pattern_gen kernel refl half_size hem scaling stereo =
        .error .noStructureFactor) ∧
    (noThetaCheck refl = false → noSFCheck refl = false → s ≠ "linear" → s ≠ "square" →
      calculate_master_pattern_gen kernel refl half_size hem (some s) stereo =
        .error (.unknownScaling s)) := by
  refine ⟨fun h1 => ?_, fun h1 h2 => ?_, fun h1 h2 hs1 hs2 => ?_⟩
  · simp [calculate_master_pattern_gen, h1]
  · simp [calculate_master_pattern_gen, h1, h2]
  · simp [calculate_master_pattern_gen, h1, h2, scalingIntensity, hs1, hs2]

/-- Witness for C8: the three rejection paths at concrete inputs. -/
theorem master_pattern_rejects_invalid_input_witness :
    calculate_master_pattern_gen get_pattern [⟨⟨0, 0, 1⟩, 0, true, 0, true⟩] 1 Hemisphere.upper
        none (fun _ _ => ⟨0, 0, 1⟩) = .error .noTheta ∧
    calculate_master_pattern_gen get_pattern [⟨⟨0, 0, 1⟩, 1, false, 0, true⟩] 1 Hemisphere.upper
        none (fun _ _ => ⟨0, 0, 1⟩) = .error .noStructureFactor ∧
    calculate_master_pattern_gen get_pattern [⟨⟨0, 0, 1⟩, 1, false, 1, false⟩] 1 Hemisphere.upper
        (some "cubic") (fun _ _ => ⟨0, 0, 1⟩) = .error (.unknownScaling "cubic") :=
  ⟨(master_pattern_rejects_invalid_input get_pattern [⟨⟨0, 0, 1⟩, 0, true, 0, true⟩] 1
      Hemisphere.upper none "x" (fun _ _ => ⟨0, 0, 1⟩)).1 rfl,
   (master_pattern_rejects_invalid_input get_pattern [⟨⟨0, 0, 1⟩, 1, false, 0, true⟩] 1
      Hemisphere.upper none "x" (fun _ _ => ⟨0, 0, 1⟩)).2.1 rfl rfl,
   (master_pattern_rejects_invalid_input get_pattern [⟨⟨0, 0, 1⟩, 1, false, 1, false⟩] 1
      Hemisphere.upper none "cubic" (fun _ _ => ⟨0, 0, 1⟩)).2.2 rfl rfl (by decide) (by decide)⟩

theorem scalingIntensity_error_shape (refl : List Reflector) (scaling : Option String)
    (e : MPError) (h : scalingIntensity refl scaling = .error e) :
    ∃ s, e = MPError.unknownScaling s := by
  cases scaling with
  | none => simp [scalingIntensity] at h
  | some s =>
    by_cases hs1 : s = "linear"
    · simp [scalingIntensity, hs1] at h
    · by_cases hs2 : s = "square"
      · simp [scalingIntensity, hs1, hs2] at h
      · simp [scalingIntensity, hs1, hs2] at h
        exact ⟨s, h.symm⟩

/-- Claim C10: the missing-field validation inspects only the first
reflector: the no-Bragg-angles error is raised iff the first reflector's
theta is NaN (independently of every later entry), the structure-factor
error analogously once the theta check passes, the theta check comes first
when both fields are missing, and a set whose first entry is computed is
accepted even when all later entries are NaN. -/
theorem validation_checks_first_reflector_only
    (kernel : List ℝ → List Vec3R → List Vec3R → List ℝ → List ℝ)
    (r : Reflector) (rest : List Reflector) (half_size : ℕ) (hem : Hemisphere)
    (scaling : Option String) (stereo : Vec3R → ℝ × ℝ → Vec3R) :
    (calculate_master_pattern_gen kernel (r :: rest) half_size hem scaling stereo =
        .error .noTheta ↔ r.thetaIsNaN = true) ∧
    (r.thetaIsNaN = false →
      (calculate_master_pattern_gen kernel (r :: rest) half_size hem scaling stereo =
          .error .noStructureFactor ↔ r.sfIsNaN = true)) ∧
    (r.thetaIsNaN = true → r.sfIsNaN = true →
      calculate_master_pattern_gen kernel (r :: rest) half_size hem scaling stereo =
        .error .noTheta) ∧
    (r.thetaIsNaN = false → r.sfIsNaN = false →
      exceptIsOk (calculate_master_pattern_gen kernel (r :: rest) half_size hem
        (some "linear") stereo) = true) := by
  have hnt : noThetaCheck (r :: rest) = r.thetaIsNaN := rfl
  have hns : noSFCheck (r :: rest) = r.sfIsNaN := rfl
  cases hr : r.thetaIsNaN with
  | true =>
    have herr : ∀ sc, calculate_master_pattern_gen kernel (r :: rest) half_size hem sc stereo =
        .error .noTheta := by
      intro sc
      simp [calculate_master_pattern_gen, hnt, hr]
    exact ⟨⟨fun _ => rfl, fun _ => herr scaling⟩, fun hc => by simp [hr] at hc,
      fun _ _ => herr scaling, fun hc => by simp [hr] at hc⟩
  | false =>
    cases hsf : r.sfIsNaN with
    | true =>
      have herr2 : ∀ sc, calculate_master_pattern_gen kernel (r :: rest) half_size hem sc
          stereo = .error .noStructureFactor := by
        intro sc
        simp [calculate_master_pattern_gen, hnt, hr, hns, hsf]
      refine ⟨⟨fun hc => ?_, fun hc => by simp [hr] at hc⟩,
        fun _ => ⟨fun _ => rfl, fun _ => herr2 scaling⟩,
        fun hc _ => by simp [hr] at hc, fun _ hc => by simp [hsf] at hc⟩
      rw [herr2 scaling] at hc
      simp at hc
    | false =>
      have hok : ∀ sc I, scalingIntensity (r :: rest) sc = Except.ok I →
          calculate_master_pattern_gen kernel (r :: rest) half_size hem sc stereo =
            Except.ok ((polesFromHemisphere hem).map fun p =>
              chunk (2 * half_size + 1)
                (kernel I ((gridPoints (2 * half_size + 1)).map (stereo p))
                  ((r :: rest).map fun x => unitVec x.direction)
                  ((r :: rest).map fun x => x.theta))) := by
        intro sc I hI
        simp [calculate_master_pattern_gen, hnt, hr, hns, hsf, hI]
      refine ⟨⟨fun hc => ?_, fun hc => by simp [hr] at hc⟩,
        fun _ => ⟨fun hc => ?_, fun hc => by simp [hsf] at hc⟩,
        fun hc _ => by simp [hr] at hc, fun _ _ => ?_⟩
      · cases hsi : scalingIntensity (r :: rest) scaling with
        | error e =>
          rw [calculate_master_pattern_gen] at hc
          simp [hnt, hr, hns, hsf, hsi] at hc
          obtain ⟨s, rfl⟩ := scalingIntensity_error_shape _ _ _ hsi
          simp at hc
        | ok I => rw [hok scaling I hsi] at hc; simp at hc
      · cases hsi : scalingIntensity (r :: rest) scaling with
        | error e =>
          rw [calculate_master_pattern_gen] at hc
          simp [hnt, hr, hns, hsf, hsi] at hc
          obtain ⟨s, rfl⟩ := scalingIntensity_error_shape _ _ _ hsi
          simp at hc
        | ok I => rw [hok scaling I hsi] at hc; simp at hc
      · rw [hok (some "linear") ((r :: rest).map fun x => Complex.abs x.structureFactor)
          (by simp [scalingIntensity])]
        rfl

/-- Witness for C10: a set whose first reflector has both fields computed
and whose second reflector has both fields NaN is accepted without error. -/
theorem validation_checks_first_reflector_only_witness :
    exceptIsOk (calculate_master_pattern_gen get_pattern
      [⟨⟨0, 0, 1⟩, 1, false, 1, false⟩, ⟨⟨1, 0, 0⟩, 0, true, 0, true⟩] 1 Hemisphere.upper
      (some "linear") (fun _ _ => ⟨0, 0, 1⟩)) = true :=
  (validation_checks_first_reflector_only get_pattern ⟨⟨0, 0, 1⟩, 1, false, 1, false⟩
    [⟨⟨1, 0, 0⟩, 0, true, 0, true⟩] 1 Hemisphere.upper none
    (fun _ _ => ⟨0, 0, 1⟩)).2.2.2 rfl rfl

end Kikuchipy
